import Mathlib

/-!
# Verification of the Sahayak voice-capture and UI handlers

Shallow embedding of the handlers of `src/components/ChatInterface.tsx`
(remote AssemblyAI transcription, voice-input toggle, chat send),
`src/components/QuizGame.tsx` (answer selection) and the `ImageUpload`
component (file intake), together with the duplicate `ChatInterface`
implementation found in the repository (here `part002`).

Effects (alerts, console logs, network fetches, speech-recognition start/stop)
are recorded as explicit action traces; React state setters become field
updates on explicit state records; `await`ed promises become oracle fields of
an environment record.
-/

namespace Sahayak

/-! ## Language → locale mapping (`getLocaleForLanguage`, ChatInterface.tsx 109-138) -/

/-- `getLocaleForLanguage` from `src/components/ChatInterface.tsx`:
a fixed map from language code to BCP-47 locale, defaulting to `"en-US"`. -/
def getLocaleForLanguage (code : String) : String :=
  if code = "hi" then "hi-IN"
  else if code = "en" then "en-US"
  else if code = "bn" then "bn-IN"
  else if code = "te" then "te-IN"
  else if code = "mr" then "mr-IN"
  else if code = "ta" then "ta-IN"
  else if code = "gu" then "gu-IN"
  else if code = "kn" then "kn-IN"
  else if code = "ml" then "ml-IN"
  else if code = "pa" then "pa-IN"
  else if code = "or" then "or-IN"
  else if code = "as" then "as-IN"
  else if code = "sa" then "sa-IN"
  else if code = "ur" then "ur-IN"
  else if code = "ne" then "ne-NP"
  else if code = "es" then "es-ES"
  else if code = "fr" then "fr-FR"
  else if code = "de" then "de-DE"
  else if code = "it" then "it-IT"
  else if code = "pt" then "pt-PT"
  else if code = "ru" then "ru-RU"
  else if code = "ja" then "ja-JP"
  else if code = "ko" then "ko-KR"
  else if code = "zh" then "zh-CN"
  else if code = "ar" then "ar-SA"
  else "en-US"

/-- The domain of the fixed language-code map (the 25 mapped codes). -/
def mappedLanguageCodes : List String :=
  ["hi", "en", "bn", "te", "mr", "ta", "gu", "kn", "ml", "pa", "or", "as",
   "sa", "ur", "ne", "es", "fr", "de", "it", "pt", "ru", "ja", "ko", "zh", "ar"]

/-! ## Remote transcription (AssemblyAI) model

`sendToAssemblyAI` (ChatInterface.tsx 196-268) uploads the recorded blob,
creates a transcription job, then polls every 2000 ms until the polled
status is `completed` or `failed`. The network responses are oracles in
`AAIEnv`; the poll loop gets explicit fuel (the real loop is unbounded,
which theorem `C7` makes precise). -/

/-- JavaScript `String.prototype.trim`: strip whitespace from both ends. -/
def jsTrim (s : String) : String :=
  String.mk ((s.data.dropWhile Char.isWhitespace).reverse.dropWhile Char.isWhitespace).reverse

/-- Status field of one poll response (`pollData.status`). Anything other
than `completed` / `failed` (e.g. `queued`, `processing`) keeps polling. -/
inductive PollStatus where
  | completed (text : String)
  | failed
  | processing
  deriving DecidableEq, Repr

/-- A status is terminal iff it is `completed` or `failed`. -/
def PollStatus.isTerminal : PollStatus → Bool
  | .completed _ => true
  | .failed => true
  | .processing => false

/-- Observable actions of the remote-transcription path. `alertUser` is the
only user-facing channel (`alert(...)` in the source); `logTranscript` and
`warnEmpty` are `console.log` / `console.warn`. -/
inductive RemoteAct where
  | alertUser (msg : String)
  | fetchUpload
  | fetchTranscript
  | sleep (ms : Nat)
  | fetchPoll (i : Nat)
  | logTranscript (text : String)
  | warnEmpty
  | setInput (text : String)
  deriving DecidableEq, Repr

/-- Oracle environment for `sendToAssemblyAI`: the API key from the
environment, the `upload_url` field of the upload response, the `id` field
of the job-creation response, and the status of the `i`-th poll response. -/
structure AAIEnv where
  apiKey : Option String
  uploadUrl : Option String
  transcriptId : Option String
  polls : Nat → PollStatus

/-- The `while (!completed)` poll loop (ChatInterface.tsx 236-256), polling
from index `i` with `fuel` iterations allowed. Each iteration awaits a
2000 ms timeout, then fetches the job status. Outcome: `none` = fuel
exhausted with the loop still running, `some none` = status `failed`
(alert and early return), `some (some t)` = status `completed` with text
`t` (loop exits, `t` flows to the post-loop code). -/
def pollLoop (polls : Nat → PollStatus) : Nat → Nat → List RemoteAct × Option (Option String)
  | _, 0 => ([], none)
  | i, fuel + 1 =>
    let acts := [RemoteAct.sleep 2000, RemoteAct.fetchPoll i]
    match polls i with
    | .completed t => (acts, some (some t))
    | .failed => (acts ++ [RemoteAct.alertUser "Transcription failed."], some none)
    | .processing =>
      let rest := pollLoop polls (i + 1) fuel
      (acts ++ rest.1, rest.2)

/-- The poll trace produced by iterations `i..i+k`: each status fetch is
immediately preceded by the 2000 ms sleep of its iteration. -/
def pollTraceFrom : Nat → Nat → List RemoteAct
  | i, 0 => [RemoteAct.sleep 2000, RemoteAct.fetchPoll i]
  | i, k + 1 => [RemoteAct.sleep 2000, RemoteAct.fetchPoll i] ++ pollTraceFrom (i + 1) k

/-- Is this action a poll request? -/
def RemoteAct.isFetchPoll : RemoteAct → Bool
  | .fetchPoll _ => true
  | _ => false

/-- Is this action a user-facing alert? -/
def RemoteAct.isAlert : RemoteAct → Bool
  | .alertUser _ => true
  | _ => false

/-- Does this action write the input field? -/
def RemoteAct.isSetInput : RemoteAct → Bool
  | .setInput _ => true
  | _ => false

/-- `sendToAssemblyAI` (ChatInterface.tsx 196-268). Returns the action trace
and the value written to the input field, if any. The key check precedes
every fetch; a missing `upload_url` or job `id` alerts and returns; on
`completed` the text is logged and written to the input only when its
trimmed form is non-empty (`text && text.trim().length > 0`), otherwise a
console warning is emitted. -/
def sendToAssemblyAI (env : AAIEnv) (fuel : Nat) : List RemoteAct × Option String :=
  match env.apiKey with
  | none => ([RemoteAct.alertUser "AssemblyAI API key not found in environment variables!"], none)
  | some _ =>
    match env.uploadUrl with
    | none => ([RemoteAct.fetchUpload, RemoteAct.alertUser "Failed to upload audio to AssemblyAI."], none)
    | some _ =>
      match env.transcriptId with
      | none => ([RemoteAct.fetchUpload, RemoteAct.fetchTranscript,
                  RemoteAct.alertUser "Failed to start transcription."], none)
      | some _ =>
        let res := pollLoop env.polls 0 fuel
        let pre := [RemoteAct.fetchUpload, RemoteAct.fetchTranscript]
        match res.2 with
        | none => (pre ++ res.1, none)
        | some none => (pre ++ res.1, none)
        | some (some t) =>
          if t ≠ "" ∧ jsTrim t ≠ "" then
            (pre ++ res.1 ++ [RemoteAct.logTranscript t, RemoteAct.setInput t], some t)
          else
            (pre ++ res.1 ++ [RemoteAct.logTranscript t, RemoteAct.warnEmpty], none)

/-- State of the `useAssemblyAIRecorder` hook plus the input field it
writes: `isRecording` / `isTranscribing` flags, `audioChunksRef.current`
(chunk sizes) and `inputValue`. -/
structure RecState where
  isRecording : Bool
  isTranscribing : Bool
  chunks : List Nat
  inputValue : String
  deriving DecidableEq, Repr

/-- Browser-side oracles for one remote recording run. -/
structure RecEnv where
  mediaRecorderSupported : Bool
  micGranted : Bool
  aai : AAIEnv

/-- One full remote transcription run (`startRecording` … `onstop`,
ChatInterface.tsx 149-184 and 168-177): the support guard, then
`isRecording := true` and `audioChunksRef.current = []`; on microphone
denial both flags are cleared and an alert shown; otherwise each
`ondataavailable` event pushes its chunk when `size > 0`; `onstop` clears
`isRecording`, sets `isTranscribing`, assembles the blob from the buffered
chunks, awaits `sendToAssemblyAI`, then clears `isTranscribing`. The chunk
buffer is not cleared at the end of the run. -/
def remoteRun (env : RecEnv) (chunkSizes : List Nat) (fuel : Nat) (s : RecState) :
    RecState × List RemoteAct :=
  if ¬env.mediaRecorderSupported then
    (s, [RemoteAct.alertUser "Voice recording is not supported in this browser. Try Chrome on desktop."])
  else
    let s1 : RecState := { s with isRecording := true, chunks := [] }
    if ¬env.micGranted then
      ({ s1 with isRecording := false, isTranscribing := false },
       [RemoteAct.alertUser "Microphone access denied or not available."])
    else
      let s2 : RecState := { s1 with chunks := s1.chunks ++ chunkSizes.filter (fun n => 0 < n) }
      let s3 : RecState := { s2 with isRecording := false, isTranscribing := true }
      let res := sendToAssemblyAI env.aai fuel
      let s4 : RecState :=
        match res.2 with
        | some t => { s3 with inputValue := t }
        | none => s3
      ({ s4 with isTranscribing := false }, res.1)

/-! ## Voice-input toggle and fallback recognition (ChatInterface.tsx 327-427)

`handleVoiceInput` toggles: while listening it stops the active session
(fallback: `fallbackRecognitionRef.current.stop()` inside try/catch, then
clears both flags; primary: `SpeechRecognition.stopListening()`, then clears
the flag) and returns. While idle it tries the primary library (after a
microphone-permission probe), falling back to the native recognition object,
else alerts. `onstart` of the fallback object stores the handle and raises
both flags; the synchronous model folds that callback into the start. -/

/-- Speech-capture component state: the `isListening` / `isUsingFallback`
flags, `fallbackRecognitionRef.current` (abstract handle) and the
`fallbackTranscript` accumulator. -/
structure VoiceState where
  isListening : Bool
  isUsingFallback : Bool
  fallbackHandle : Option Nat
  fallbackTranscript : String
  deriving DecidableEq, Repr

/-- Observable actions of the voice-input path. `startPrimary` /
`startFallback` carry the locale the session is configured with. -/
inductive VoiceAct where
  | requestMic
  | startPrimary (locale : String)
  | startFallback (locale : String)
  | stopPrimary
  | stopNative (h : Nat)
  | alertUser (msg : String)
  deriving DecidableEq, Repr

/-- Browser capabilities and the permission oracle for one invocation. -/
structure VoiceEnv where
  browserSupportsSpeechRecognition : Bool
  nativeRecognitionAvailable : Bool
  micGranted : Bool
  freshHandle : Nat

/-- `startFallbackSpeechRecognition` (ChatInterface.tsx 327-374): when the
native API exists, build a recognition object with
`lang = getLocaleForLanguage(selectedLanguage)`, start it; its `onstart`
raises both flags and stores the handle. -/
def startFallbackSpeechRecognition (env : VoiceEnv) (selectedLanguage : String)
    (s : VoiceState) : VoiceState × List VoiceAct :=
  if env.nativeRecognitionAvailable then
    ({ s with isListening := true, isUsingFallback := true,
              fallbackHandle := some env.freshHandle },
     [VoiceAct.startFallback (getLocaleForLanguage selectedLanguage)])
  else
    (s, [])

/-- The stop block of `handleVoiceInput` taken in fallback mode
(ChatInterface.tsx 378-388): invoke `stop()` on the stored handle when one
is stored (inside try/catch, so a throwing stop is only logged), then clear
both flags. The handle itself is cleared later by the object's `onend`. -/
def fallbackStopBlock (s : VoiceState) : VoiceState × List VoiceAct :=
  let acts := match s.fallbackHandle with
    | some h => [VoiceAct.stopNative h]
    | none => []
  ({ s with isListening := false, isUsingFallback := false }, acts)

/-- Iterated invocation of a stateful operation, accumulating actions. -/
def iterOp (f : VoiceState → VoiceState × List VoiceAct) :
    Nat → VoiceState → VoiceState × List VoiceAct
  | 0, s => (s, [])
  | n + 1, s =>
    let r1 := f s
    let r2 := iterOp f n r1.1
    (r2.1, r1.2 ++ r2.2)

/-- `handleVoiceInput` (ChatInterface.tsx 376-427). -/
def handleVoiceInput (env : VoiceEnv) (selectedLanguage : String)
    (s : VoiceState) : VoiceState × List VoiceAct :=
  if s.isListening then
    if s.isUsingFallback then
      fallbackStopBlock s
    else
      ({ s with isListening := false }, [VoiceAct.stopPrimary])
  else
    if env.browserSupportsSpeechRecognition then
      if env.micGranted then
        ({ s with isListening := true, isUsingFallback := false },
         [VoiceAct.requestMic, VoiceAct.startPrimary (getLocaleForLanguage selectedLanguage)])
      else
        let r := startFallbackSpeechRecognition env selectedLanguage s
        (r.1, VoiceAct.requestMic :: r.2)
    else
      if env.nativeRecognitionAvailable then
        startFallbackSpeechRecognition env selectedLanguage s
      else
        (s, [VoiceAct.alertUser "Voice input is not supported in this browser. Please try Chrome or Edge on desktop."])

/-- Whether an action starts a new capture session. -/
def VoiceAct.isStart : VoiceAct → Bool
  | .startPrimary _ => true
  | .startFallback _ => true
  | _ => false

/-! ## The duplicate ChatInterface implementation (`src/unnamed/part_002`)

The repository carries a second, divergent `ChatInterface`: its
`startFallbackSpeechRecognition` (part_002 lines 114-156) hardcodes
`recognition.lang = 'en-US'` and its primary start also passes
`language: 'en-US'`, ignoring the selected response language. It stores no
handle. -/

/-- `startFallbackSpeechRecognition` of `src/unnamed/part_002` (lines
114-156): the constructed recognition object always gets `lang = 'en-US'`,
whatever language is selected. -/
def part002StartFallbackSpeechRecognition (env : VoiceEnv) (_selectedLanguage : String)
    (s : VoiceState) : VoiceState × List VoiceAct :=
  if env.nativeRecognitionAvailable then
    ({ s with isListening := true, isUsingFallback := true },
     [VoiceAct.startFallback "en-US"])
  else
    (s, [])

/-! ## Quiz game (`src/components/QuizGame.tsx`) -/

/-- One generated quiz question. -/
structure Question where
  question : String
  options : List String
  correctAnswer : Nat
  deriving DecidableEq, Repr

/-- The component state `handleAnswerSelect` reads and writes. The score is
an integer: a wrong answer subtracts 5, so it can go negative. -/
structure QuizState where
  questions : List Question
  currentQuestion : Nat
  score : Int
  selectedAnswer : Option Nat
  isAnswered : Bool
  deriving DecidableEq, Repr

/-- `handleAnswerSelect` (QuizGame.tsx 133-167), up to the 2-second
`setTimeout` that later advances the question: an early return when the
question is already answered; otherwise record the selection, mark the
question answered, and add 10 (correct) or subtract 5 (wrong). The source
reads `questions[currentQuestion].correctAnswer` only after the guard;
an in-range index (hypothesized in the theorems) makes the `getD` default
irrelevant. -/
def handleAnswerSelect (s : QuizState) (answerIndex : Nat) : QuizState :=
  if s.isAnswered then s
  else
    let q := s.questions.getD s.currentQuestion { question := "", options := [], correctAnswer := 0 }
    let isCorrect := answerIndex = q.correctAnswer
    { s with selectedAnswer := some answerIndex,
             isAnswered := true,
             score := if isCorrect then s.score + 10 else s.score - 5 }

/-! ## Image upload (`ImageUpload`, `src/unnamed/part_001`) -/

/-- A submitted file: MIME type and size in bytes. -/
structure FileData where
  ftype : String
  size : Nat
  deriving DecidableEq, Repr

/-- Upload status of an accepted file. -/
inductive UploadStatus where
  | uploading
  | success
  | error
  deriving DecidableEq, Repr

/-- An entry of the uploaded-files list. -/
structure UploadedFile where
  file : FileData
  status : UploadStatus
  deriving DecidableEq, Repr

/-- A toast emitted by `processFiles`; `destructive` mirrors
`variant: "destructive"`. -/
structure Toast where
  title : String
  description : String
  destructive : Bool
  deriving DecidableEq, Repr

/-- Acceptance test of `processFiles` (part_001 lines 31-47): reject
non-image MIME types first, then files over `10 * 1024 * 1024` bytes. -/
def acceptsFile (f : FileData) : Bool :=
  f.ftype.startsWith "image/" && f.size ≤ 10 * 1024 * 1024

/-- `processFiles` on a single file (one iteration of the `forEach`): a
rejected file toasts destructively and leaves the list alone; an accepted
file is appended with status `uploading` (the deferred `setTimeout` that
later flips it to `success` is outside this step). -/
def processFile (files : List UploadedFile) (f : FileData) :
    List UploadedFile × List Toast :=
  if ¬f.ftype.startsWith "image/" then
    (files, [{ title := "Invalid file type",
               description := "Please upload only image files.",
               destructive := true }])
  else if 10 * 1024 * 1024 < f.size then
    (files, [{ title := "File too large",
               description := "Please upload images smaller than 10MB.",
               destructive := true }])
  else
    (files ++ [{ file := f, status := UploadStatus.uploading }], [])

/-- `processFiles` (part_001 lines 29-72): iterate `processFile` over the
submitted files in order, accumulating toasts. -/
def processFiles (files : List UploadedFile) : List FileData → List UploadedFile × List Toast
  | [] => (files, [])
  | f :: fs =>
    let r1 := processFile files f
    let r2 := processFiles r1.1 fs
    (r2.1, r1.2 ++ r2.2)

/-- The destructive toast a rejected file produces (type check first). -/
def rejectToast (f : FileData) : Toast :=
  if ¬f.ftype.startsWith "image/" then
    { title := "Invalid file type", description := "Please upload only image files.",
      destructive := true }
  else
    { title := "File too large", description := "Please upload images smaller than 10MB.",
      destructive := true }

/-! ## Chat send (`handleSendMessage`, ChatInterface.tsx 440-566) -/

/-- A chat message (the fields the handlers act on). -/
structure MessageM where
  content : String
  isUser : Bool
  deriving DecidableEq, Repr

/-- Chat component state touched by `handleSendMessage`. -/
structure ChatState where
  messages : List MessageM
  inputValue : String
  uploadedImage : Option String
  isLoading : Bool
  isTTSLoading : Bool
  deriving DecidableEq, Repr

/-- Network/audio actions of the chat-send path. -/
inductive ChatAct where
  | fetchGenerate
  | fetchTTS
  | playAudio (url : String)
  deriving DecidableEq, Repr

/-- Oracles for one send: the two environment keys, the outcome of the
generative call (`error m` = the SDK threw with message `m`) and the TTS
response fields. -/
structure ChatEnv where
  geminiKey : Option String
  lambKey : Option String
  geminiResult : Except String String
  ttsOk : Bool
  ttsAudioUrl : Option String
  ttsAudioBase64 : Option String

/-- Occurrence of `pat` as a contiguous sublist of `s`. -/
def listIncludes (pat : List Char) : List Char → Bool
  | [] => pat.isEmpty
  | c :: rest => pat.isPrefixOf (c :: rest) || listIncludes pat rest

/-- JavaScript `String.prototype.includes`. -/
def jsIncludes (s pat : String) : Bool :=
  listIncludes pat.toList s.toList

/-- The catch-block message classification of `handleSendMessage`
(ChatInterface.tsx 538-553). -/
def classifyGeminiError (msg : String) : String :=
  if jsIncludes msg "API key" then "API key error: " ++ msg
  else if jsIncludes msg "quota" then "API quota exceeded. Please check your Gemini API usage."
  else if jsIncludes msg "network" then "Network error. Please check your internet connection."
  else "Error: " ++ msg

/-- The TTS block of `handleSendMessage` (ChatInterface.tsx 502-534): a
missing Lamb key throws before the fetch; a non-ok response or a response
with neither `audio_url` nor `audio_base64` throws after it; otherwise the
audio plays. All its errors are caught and swallowed locally. Returns the
actions it performs. -/
def ttsBlock (env : ChatEnv) : List ChatAct :=
  match env.lambKey with
  | none => []
  | some _ =>
    if ¬env.ttsOk then [ChatAct.fetchTTS]
    else
      match env.ttsAudioUrl with
      | some url => [ChatAct.fetchTTS, ChatAct.playAudio url]
      | none =>
        match env.ttsAudioBase64 with
        | some b64 => [ChatAct.fetchTTS, ChatAct.playAudio ("data:audio/wav;base64," ++ b64)]
        | none => [ChatAct.fetchTTS]

/-- `handleSendMessage` (ChatInterface.tsx 440-566): guard on empty input
with no image; append the user message and clear input/image; check the
Gemini key before constructing the client (a missing key throws into the
catch block, which appends the classified error message — no fetch
happens); with a key, the generative call either throws (classified error
appended) or returns text that is appended and fed to the TTS block. -/
def handleSendMessage (env : ChatEnv) (s : ChatState) : ChatState × List ChatAct :=
  if jsTrim s.inputValue = "" ∧ s.uploadedImage = none then (s, [])
  else
    let userMsg : MessageM :=
      { content := if s.inputValue ≠ "" then s.inputValue else "Analyze this image",
        isUser := true }
    let s1 : ChatState :=
      { s with messages := s.messages ++ [userMsg],
               inputValue := "", uploadedImage := none, isLoading := true }
    match env.geminiKey with
    | none =>
      let errMsg := classifyGeminiError "Gemini API key not found. Check .env file."
      ({ s1 with messages := s1.messages ++ [{ content := errMsg, isUser := false }],
                 isLoading := false }, [])
    | some _ =>
      match env.geminiResult with
      | .error m =>
        ({ s1 with messages := s1.messages ++ [{ content := classifyGeminiError m, isUser := false }],
                   isLoading := false }, [ChatAct.fetchGenerate])
      | .ok text =>
        let s2 : ChatState := { s1 with messages := s1.messages ++ [{ content := text, isUser := false }] }
        ({ s2 with isLoading := false, isTTSLoading := false },
         ChatAct.fetchGenerate :: ttsBlock env)

/-! ## Poll-loop lemmas -/

theorem pollLoop_isSome_iff (polls : Nat → PollStatus) (fuel : Nat) : ∀ i,
    ((pollLoop polls i fuel).2.isSome = true ↔
      ∃ k, k < fuel ∧ (polls (i + k)).isTerminal = true) := by
  induction fuel with
  | zero => intro i; simp [pollLoop]
  | succ f ih =>
    intro i
    cases hp : polls i with
    | completed t =>
      simp only [pollLoop, hp, Option.isSome_some, true_iff]
      exact ⟨0, by omega, by simp [hp, PollStatus.isTerminal]⟩
    | failed =>
      simp only [pollLoop, hp, Option.isSome_some, true_iff]
      exact ⟨0, by omega, by simp [hp, PollStatus.isTerminal]⟩
    | processing =>
      simp only [pollLoop, hp]
      rw [ih (i + 1)]
      constructor
      · rintro ⟨k, hk, ht⟩
        exact ⟨k + 1, by omega, by rwa [show i + (k + 1) = i + 1 + k by omega]⟩
      · rintro ⟨k, hk, ht⟩
        cases k with
        | zero => simp [hp, PollStatus.isTerminal] at ht
        | succ k =>
          exact ⟨k, by omega, by rwa [show i + 1 + k = i + (k + 1) by omega]⟩

theorem pollLoop_completed_run (polls : Nat → PollStatus) (t : String) : ∀ k i fuel,
    (∀ j, j < k → (polls (i + j)).isTerminal = false) →
    polls (i + k) = PollStatus.completed t → k < fuel →
    pollLoop polls i fuel = (pollTraceFrom i k, some (some t)) := by
  intro k
  induction k with
  | zero =>
    intro i fuel h0 hc hf
    match fuel, hf with
    | f + 1, _ =>
      rw [Nat.add_zero] at hc
      simp [pollLoop, hc, pollTraceFrom]
  | succ k ih =>
    intro i fuel h0 hc hf
    match fuel, hf with
    | f + 1, hf =>
      have hpi : (polls i).isTerminal = false := by simpa using h0 0 (by omega)
      cases hp : polls i with
      | completed u => rw [hp] at hpi; simp [PollStatus.isTerminal] at hpi
      | failed => rw [hp] at hpi; simp [PollStatus.isTerminal] at hpi
      | processing =>
        have hrec := ih (i + 1) f
          (fun j hj => by
            have hx := h0 (j + 1) (by omega)
            rwa [show i + (j + 1) = i + 1 + j by omega] at hx)
          (by rwa [show i + 1 + k = i + (k + 1) by omega])
          (by omega)
        simp [pollLoop, hp, hrec, pollTraceFrom]

theorem pollLoop_failed_run (polls : Nat → PollStatus) : ∀ k i fuel,
    (∀ j, j < k → (polls (i + j)).isTerminal = false) →
    polls (i + k) = PollStatus.failed → k < fuel →
    pollLoop polls i fuel =
      (pollTraceFrom i k ++ [RemoteAct.alertUser "Transcription failed."], some none) := by
  intro k
  induction k with
  | zero =>
    intro i fuel h0 hc hf
    match fuel, hf with
    | f + 1, _ =>
      rw [Nat.add_zero] at hc
      simp [pollLoop, hc, pollTraceFrom]
  | succ k ih =>
    intro i fuel h0 hc hf
    match fuel, hf with
    | f + 1, hf =>
      have hpi : (polls i).isTerminal = false := by simpa using h0 0 (by omega)
      cases hp : polls i with
      | completed u => rw [hp] at hpi; simp [PollStatus.isTerminal] at hpi
      | failed => rw [hp] at hpi; simp [PollStatus.isTerminal] at hpi
      | processing =>
        have hrec := ih (i + 1) f
          (fun j hj => by
            have hx := h0 (j + 1) (by omega)
            rwa [show i + (j + 1) = i + 1 + j by omega] at hx)
          (by rwa [show i + 1 + k = i + (k + 1) by omega])
          (by omega)
        simp [pollLoop, hp, hrec, pollTraceFrom]

theorem mem_pollTraceFrom {a : RemoteAct} : ∀ k i, a ∈ pollTraceFrom i k →
    a = RemoteAct.sleep 2000 ∨ ∃ j, a = RemoteAct.fetchPoll j := by
  intro k
  induction k with
  | zero =>
    intro i h
    simp [pollTraceFrom] at h
    rcases h with h | h
    · exact Or.inl h
    · exact Or.inr ⟨i, h⟩
  | succ k ih =>
    intro i h
    simp only [pollTraceFrom, List.cons_append, List.mem_cons] at h
    rcases h with h | h | h
    · exact Or.inl h
    · exact Or.inr ⟨i, h⟩
    · exact ih (i + 1) (by simpa using h)

theorem countP_fetchPoll_pollTraceFrom : ∀ k i,
    (pollTraceFrom i k).countP (fun a => a.isFetchPoll) = k + 1 := by
  intro k
  induction k with
  | zero => intro i; simp [pollTraceFrom, List.countP_cons, RemoteAct.isFetchPoll]
  | succ k ih =>
    intro i
    simp only [pollTraceFrom, List.cons_append, List.nil_append, List.countP_cons, ih (i + 1)]
    simp [RemoteAct.isFetchPoll]

theorem pollTraceFrom_no_input_no_alert {a : RemoteAct} {k i : Nat}
    (h : a ∈ pollTraceFrom i k) : a.isSetInput = false ∧ a.isAlert = false := by
  rcases mem_pollTraceFrom k i h with h1 | ⟨j, h1⟩ <;>
    subst h1 <;> exact ⟨rfl, rfl⟩

/-! ## `sendToAssemblyAI` run shapes -/

theorem sendToAssemblyAI_completed_shape (env : AAIEnv) (fuel k : Nat) (t : String)
    (h1 : env.apiKey.isSome = true) (h2 : env.uploadUrl.isSome = true)
    (h3 : env.transcriptId.isSome = true)
    (hk : ∀ j, j < k → (env.polls j).isTerminal = false)
    (hc : env.polls k = PollStatus.completed t) (hf : k < fuel) :
    sendToAssemblyAI env fuel =
      if t ≠ "" ∧ jsTrim t ≠ "" then
        ([RemoteAct.fetchUpload, RemoteAct.fetchTranscript] ++ pollTraceFrom 0 k ++
          [RemoteAct.logTranscript t, RemoteAct.setInput t], some t)
      else
        ([RemoteAct.fetchUpload, RemoteAct.fetchTranscript] ++ pollTraceFrom 0 k ++
          [RemoteAct.logTranscript t, RemoteAct.warnEmpty], none) := by
  obtain ⟨a, ha⟩ := Option.isSome_iff_exists.mp h1
  obtain ⟨u, hu⟩ := Option.isSome_iff_exists.mp h2
  obtain ⟨d, hd⟩ := Option.isSome_iff_exists.mp h3
  have hrun := pollLoop_completed_run env.polls t k 0 fuel
    (fun j hj => by simpa using hk j hj) (by simpa using hc) hf
  by_cases hne : t ≠ "" ∧ jsTrim t ≠ "" <;>
    simp [sendToAssemblyAI, ha, hu, hd, hrun, hne]

theorem sendToAssemblyAI_failed_shape (env : AAIEnv) (fuel k : Nat)
    (h1 : env.apiKey.isSome = true) (h2 : env.uploadUrl.isSome = true)
    (h3 : env.transcriptId.isSome = true)
    (hk : ∀ j, j < k → (env.polls j).isTerminal = false)
    (hc : env.polls k = PollStatus.failed) (hf : k < fuel) :
    sendToAssemblyAI env fuel =
      ([RemoteAct.fetchUpload, RemoteAct.fetchTranscript] ++
        (pollTraceFrom 0 k ++ [RemoteAct.alertUser "Transcription failed."]), none) := by
  obtain ⟨a, ha⟩ := Option.isSome_iff_exists.mp h1
  obtain ⟨u, hu⟩ := Option.isSome_iff_exists.mp h2
  obtain ⟨d, hd⟩ := Option.isSome_iff_exists.mp h3
  have hrun := pollLoop_failed_run env.polls k 0 fuel
    (fun j hj => by simpa using hk j hj) (by simpa using hc) hf
  simp [sendToAssemblyAI, ha, hu, hd, hrun]

/-! ## Claim theorems -/

/-- C7: the remote transcription poll loop queries job status at a fixed
2-second interval (every fetch in the trace sits right after its 2000 ms
sleep, as `pollTraceFrom` makes explicit) and terminates exactly when a
polled status is `completed` or `failed`; a response stream with no terminal
status never lets it finish, whatever fuel it is granted — there is no
iteration bound or timeout. -/
theorem pollLoop_terminal_iff_no_bound (polls : Nat → PollStatus) (fuel : Nat) :
    (((pollLoop polls 0 fuel).2.isSome = true) ↔ ∃ k, k < fuel ∧ (polls k).isTerminal = true)
  ∧ ((∀ j, (polls j).isTerminal = false) → (pollLoop polls 0 fuel).2 = none)
  ∧ (∀ k t, (∀ j, j < k → (polls j).isTerminal = false) →
      polls k = PollStatus.completed t → k < fuel →
      pollLoop polls 0 fuel = (pollTraceFrom 0 k, some (some t)))
  ∧ (∀ k, (∀ j, j < k → (polls j).isTerminal = false) →
      polls k = PollStatus.failed → k < fuel →
      pollLoop polls 0 fuel =
        (pollTraceFrom 0 k ++ [RemoteAct.alertUser "Transcription failed."], some none)) := by
  have hiff := pollLoop_isSome_iff polls fuel 0
  refine ⟨by simpa using hiff, ?_, ?_, ?_⟩
  · intro hall
    cases ho : (pollLoop polls 0 fuel).2 with
    | none => rfl
    | some v =>
      have hs : (pollLoop polls 0 fuel).2.isSome = true := by rw [ho]; rfl
      obtain ⟨k, _, hterm⟩ := hiff.mp hs
      rw [hall (0 + k)] at hterm
      exact Bool.noConfusion hterm
  · intro k t hk hc hf
    exact pollLoop_completed_run polls t k 0 fuel (fun j hj => by simpa using hk j hj)
      (by simpa using hc) hf
  · intro k hk hc hf
    exact pollLoop_failed_run polls k 0 fuel (fun j hj => by simpa using hk j hj)
      (by simpa using hc) hf

/-- Witness for C7: a stream that never reports a terminal status keeps the
loop unfinished at fuel 3. -/
theorem pollLoop_terminal_iff_no_bound_witness :
    (∀ j, ((fun _ : Nat => PollStatus.processing) j).isTerminal = false)
  ∧ (pollLoop (fun _ : Nat => PollStatus.processing) 0 3).2 = none :=
  ⟨fun _ => rfl,
   (pollLoop_terminal_iff_no_bound (fun _ : Nat => PollStatus.processing) 3).2.1 (fun _ => rfl)⟩

/-- C4: when the poll loop observes status `failed`, the run writes nothing
to the input field, shows the failure alert, and polls no further: the trace
counts exactly the polls up to and including the failed one. -/
theorem sendToAssemblyAI_failed_no_input (env : AAIEnv) (fuel k : Nat)
    (h1 : env.apiKey.isSome = true) (h2 : env.uploadUrl.isSome = true)
    (h3 : env.transcriptId.isSome = true)
    (hk : ∀ j, j < k → (env.polls j).isTerminal = false)
    (hc : env.polls k = PollStatus.failed) (hf : k < fuel) :
    (sendToAssemblyAI env fuel).2 = none
  ∧ ((sendToAssemblyAI env fuel).1.all fun a => !a.isSetInput) = true
  ∧ RemoteAct.alertUser "Transcription failed." ∈ (sendToAssemblyAI env fuel).1
  ∧ ((sendToAssemblyAI env fuel).1.countP fun a => a.isFetchPoll) = k + 1 := by
  have hs := sendToAssemblyAI_failed_shape env fuel k h1 h2 h3 hk hc hf
  rw [hs]
  refine ⟨rfl, ?_, ?_, ?_⟩
  · rw [List.all_eq_true]
    intro x hx
    rcases List.mem_append.mp hx with hx | hx
    · simp only [List.mem_cons, List.not_mem_nil, or_false] at hx
      rcases hx with hx | hx <;> subst hx <;> rfl
    · rcases List.mem_append.mp hx with hx | hx
      · simp [(pollTraceFrom_no_input_no_alert hx).1]
      · simp only [List.mem_singleton] at hx
        subst hx; rfl
  · simp
  · simp only [List.countP_append]
    rw [countP_fetchPoll_pollTraceFrom]
    simp [List.countP_cons, RemoteAct.isFetchPoll]

/-- Witness for C4: first poll already `failed`. -/
theorem sendToAssemblyAI_failed_no_input_witness :
    ((sendToAssemblyAI ⟨some "key", some "url", some "id", fun _ => PollStatus.failed⟩ 1).2 = none)
  ∧ (((sendToAssemblyAI ⟨some "key", some "url", some "id",
        fun _ => PollStatus.failed⟩ 1).1.all fun a => !a.isSetInput) = true)
  ∧ RemoteAct.alertUser "Transcription failed." ∈
      (sendToAssemblyAI ⟨some "key", some "url", some "id", fun _ => PollStatus.failed⟩ 1).1
  ∧ (((sendToAssemblyAI ⟨some "key", some "url", some "id",
        fun _ => PollStatus.failed⟩ 1).1.countP fun a => a.isFetchPoll) = 0 + 1) :=
  sendToAssemblyAI_failed_no_input ⟨some "key", some "url", some "id", fun _ => PollStatus.failed⟩
    1 0 rfl rfl rfl (fun j hj => absurd hj (by omega)) rfl (by omega)

/-- C8 is false as stated: a completed run with an empty transcript raises
no user-facing message at all — the trace holds no alert (and no input
write), only the console warning, unlike the hard-failure path which alerts
`"Transcription failed."`. -/
theorem sendToAssemblyAI_empty_no_user_message :
    ((sendToAssemblyAI ⟨some "key", some "url", some "id",
        fun _ => PollStatus.completed ""⟩ 1).1.all fun a => !a.isAlert && !a.isSetInput) = true
  ∧ RemoteAct.warnEmpty ∈
      (sendToAssemblyAI ⟨some "key", some "url", some "id",
        fun _ => PollStatus.completed ""⟩ 1).1
  ∧ (sendToAssemblyAI ⟨some "key", some "url", some "id",
      fun _ => PollStatus.completed ""⟩ 1).2 = none := by
  refine ⟨by decide, by decide, by decide⟩

/-- C8 (amended): a completed run whose transcript is empty or
whitespace-only writes nothing to the input field and logs a distinct
console warning; no user-facing alert is raised (the hard service failure,
by contrast, alerts the user). -/
theorem sendToAssemblyAI_empty_transcript_soft (env : AAIEnv) (fuel k : Nat) (t : String)
    (h1 : env.apiKey.isSome = true) (h2 : env.uploadUrl.isSome = true)
    (h3 : env.transcriptId.isSome = true)
    (hk : ∀ j, j < k → (env.polls j).isTerminal = false)
    (hc : env.polls k = PollStatus.completed t) (hf : k < fuel)
    (ht : jsTrim t = "") :
    (sendToAssemblyAI env fuel).2 = none
  ∧ RemoteAct.warnEmpty ∈ (sendToAssemblyAI env fuel).1
  ∧ ((sendToAssemblyAI env fuel).1.all fun a => !a.isAlert && !a.isSetInput) = true := by
  have hcond : ¬(t ≠ "" ∧ jsTrim t ≠ "") := by simp [ht]
  have hs := sendToAssemblyAI_completed_shape env fuel k t h1 h2 h3 hk hc hf
  rw [if_neg hcond] at hs
  rw [hs]
  refine ⟨rfl, by simp, ?_⟩
  rw [List.all_eq_true]
  intro x hx
  rcases List.mem_append.mp hx with hx | hx
  · rcases List.mem_append.mp hx with hx | hx
    · simp only [List.mem_cons, List.not_mem_nil, or_false] at hx
      rcases hx with hx | hx <;> subst hx <;> rfl
    · have hp := pollTraceFrom_no_input_no_alert hx
      simp [hp.1, hp.2]
  · simp only [List.mem_cons, List.not_mem_nil, or_false] at hx
    rcases hx with hx | hx <;> subst hx <;> rfl

/-- Witness for the amended C8: first poll completes with a whitespace-only
transcript. -/
theorem sendToAssemblyAI_empty_transcript_soft_witness :
    (jsTrim " " = "")
  ∧ (sendToAssemblyAI ⟨some "key", some "url", some "id",
      fun _ => PollStatus.completed " "⟩ 1).2 = none
  ∧ RemoteAct.warnEmpty ∈
      (sendToAssemblyAI ⟨some "key", some "url", some "id",
        fun _ => PollStatus.completed " "⟩ 1).1 :=
  ⟨by decide,
   (sendToAssemblyAI_empty_transcript_soft ⟨some "key", some "url", some "id",
      fun _ => PollStatus.completed " "⟩ 1 0 " " rfl rfl rfl
      (fun j hj => absurd hj (by omega)) rfl (by omega) (by decide)).1,
   (sendToAssemblyAI_empty_transcript_soft ⟨some "key", some "url", some "id",
      fun _ => PollStatus.completed " "⟩ 1 0 " " rfl rfl rfl
      (fun j hj => absurd hj (by omega)) rfl (by omega) (by decide)).2.1⟩

/-- C1 is false as stated: a run that completes with `"hello world"` does
set the input field and return both flags to idle, but the recorded audio
chunk is still in the buffer at the end of the run — the buffer is cleared
only at the start of the next recording. -/
theorem remoteRun_residual_chunks_counterexample :
    (remoteRun ⟨true, true, ⟨some "key", some "url", some "id",
        fun _ => PollStatus.completed "hello world"⟩⟩ [1] 1
      ⟨false, false, [], ""⟩).1 = ⟨false, false, [1], "hello world"⟩
  ∧ ([1] : List Nat) ≠ [] := by
  refine ⟨by decide, by decide⟩

/-- C1 (amended): a remote run whose poll loop observes `completed` with a
transcript of non-whitespace text `t` ends with the input field equal to
`t` and the session idle (neither recording nor transcribing); the chunks
recorded during the run (the non-empty `ondataavailable` payloads) remain
buffered, to be cleared only when the next recording starts. -/
theorem remoteRun_completed_sets_input_idle (env : RecEnv) (chunkSizes : List Nat)
    (fuel k : Nat) (t : String) (s : RecState)
    (hmr : env.mediaRecorderSupported = true) (hmic : env.micGranted = true)
    (h1 : env.aai.apiKey.isSome = true) (h2 : env.aai.uploadUrl.isSome = true)
    (h3 : env.aai.transcriptId.isSome = true)
    (hk : ∀ j, j < k → (env.aai.polls j).isTerminal = false)
    (hc : env.aai.polls k = PollStatus.completed t) (hf : k < fuel)
    (ht : jsTrim t ≠ "") :
    (remoteRun env chunkSizes fuel s).1.inputValue = t
  ∧ (remoteRun env chunkSizes fuel s).1.isRecording = false
  ∧ (remoteRun env chunkSizes fuel s).1.isTranscribing = false
  ∧ (remoteRun env chunkSizes fuel s).1.chunks = chunkSizes.filter (fun n => 0 < n) := by
  have htne : t ≠ "" := by
    intro h
    subst h
    exact ht rfl
  have hs := sendToAssemblyAI_completed_shape env.aai fuel k t h1 h2 h3 hk hc hf
  rw [if_pos ⟨htne, ht⟩] at hs
  simp [remoteRun, hmr, hmic, hs]

/-- Witness for the amended C1: one positive-size chunk and one zero-size
chunk; the run completes with `"hello world"` on the first poll. -/
theorem remoteRun_completed_sets_input_idle_witness :
    (jsTrim "hello world" ≠ "")
  ∧ (remoteRun ⟨true, true, ⟨some "key", some "url", some "id",
        fun _ => PollStatus.completed "hello world"⟩⟩ [2, 0, 3] 1
      ⟨false, false, [], ""⟩).1.inputValue = "hello world"
  ∧ (remoteRun ⟨true, true, ⟨some "key", some "url", some "id",
        fun _ => PollStatus.completed "hello world"⟩⟩ [2, 0, 3] 1
      ⟨false, false, [], ""⟩).1.isRecording = false
  ∧ (remoteRun ⟨true, true, ⟨some "key", some "url", some "id",
        fun _ => PollStatus.completed "hello world"⟩⟩ [2, 0, 3] 1
      ⟨false, false, [], ""⟩).1.chunks = [2, 0, 3].filter (fun n => 0 < n) := by
  have h := remoteRun_completed_sets_input_idle
    ⟨true, true, ⟨some "key", some "url", some "id",
      fun _ => PollStatus.completed "hello world"⟩⟩ [2, 0, 3] 1 0 "hello world"
    ⟨false, false, [], ""⟩ rfl rfl rfl rfl rfl
    (fun j hj => absurd hj (by omega)) rfl (by omega) (by decide)
  exact ⟨by decide, h.1, h.2.1, h.2.2.2⟩

/-- C2: a missing API key is a local pre-flight failure. With no AssemblyAI
key, `sendToAssemblyAI` only raises the configuration alert — the trace
holds no fetch at all. With no Gemini key, `handleSendMessage` appends the
configuration-error message and performs no network action. -/
theorem missing_key_no_network (aenv : AAIEnv) (fuel : Nat) (cenv : ChatEnv) (s : ChatState)
    (ha : aenv.apiKey = none) (hg : cenv.geminiKey = none)
    (hs : ¬(jsTrim s.inputValue = "" ∧ s.uploadedImage = none)) :
    sendToAssemblyAI aenv fuel =
      ([RemoteAct.alertUser "AssemblyAI API key not found in environment variables!"], none)
  ∧ (handleSendMessage cenv s).2 = []
  ∧ (handleSendMessage cenv s).1.messages =
      s.messages ++
        [{ content := if s.inputValue ≠ "" then s.inputValue else "Analyze this image",
           isUser := true },
         { content := "API key error: Gemini API key not found. Check .env file.",
           isUser := false }] := by
  have hcl : classifyGeminiError "Gemini API key not found. Check .env file." =
      "API key error: Gemini API key not found. Check .env file." := by decide
  refine ⟨?_, ?_, ?_⟩
  · simp [sendToAssemblyAI, ha]
  · simp [handleSendMessage, hs, hg]
  · simp [handleSendMessage, hs, hg, hcl]

/-- Witness for C2: both keys absent, input `"hello"`. -/
theorem missing_key_no_network_witness :
    (¬(jsTrim (ChatState.inputValue ⟨[], "hello", none, false, false⟩) = ""
        ∧ ChatState.uploadedImage ⟨[], "hello", none, false, false⟩ = none))
  ∧ sendToAssemblyAI ⟨none, none, none, fun _ => PollStatus.processing⟩ 0 =
      ([RemoteAct.alertUser "AssemblyAI API key not found in environment variables!"], none)
  ∧ (handleSendMessage ⟨none, none, Except.ok "", true, none, none⟩
      ⟨[], "hello", none, false, false⟩).2 = [] := by
  have h := missing_key_no_network ⟨none, none, none, fun _ => PollStatus.processing⟩ 0
    ⟨none, none, Except.ok "", true, none, none⟩ ⟨[], "hello", none, false, false⟩
    rfl rfl (by decide)
  exact ⟨by decide, h.1, h.2.1⟩

/-- C3: invoked while a session is listening, the voice-input handler
terminates it — the native `stop` on the stored fallback handle, or the
primary library's `stopListening` — clears the listening flags, and emits
no start action; moreover any invocation that emits a start action was made
from a non-listening state. -/
theorem handleVoiceInput_listening_stops (env : VoiceEnv) (code : String) (s : VoiceState)
    (hl : s.isListening = true)
    (hh : s.isUsingFallback = true → s.fallbackHandle.isSome = true) :
    (handleVoiceInput env code s).1.isListening = false
  ∧ (handleVoiceInput env code s).1.isUsingFallback = false
  ∧ (handleVoiceInput env code s).2 =
      (if s.isUsingFallback = true then [VoiceAct.stopNative (s.fallbackHandle.getD 0)]
       else [VoiceAct.stopPrimary])
  ∧ (∀ s2 : VoiceState, (handleVoiceInput env code s2).2.any (fun a => a.isStart) = true →
      s2.isListening = false) := by
  have hmain : ∀ s2 : VoiceState, s2.isListening = true →
      (handleVoiceInput env code s2).2.any (fun a => a.isStart) = false := by
    intro s2 h2
    by_cases hf : s2.isUsingFallback = true
    · cases hfh : s2.fallbackHandle <;>
        simp [handleVoiceInput, h2, hf, fallbackStopBlock, hfh, VoiceAct.isStart]
    · simp [handleVoiceInput, h2, hf, VoiceAct.isStart]
  have hlast : ∀ s2 : VoiceState, (handleVoiceInput env code s2).2.any (fun a => a.isStart) = true →
      s2.isListening = false := by
    intro s2 h2
    cases h3 : s2.isListening with
    | false => rfl
    | true => rw [hmain s2 h3] at h2; exact Bool.noConfusion h2
  by_cases hf : s.isUsingFallback = true
  · obtain ⟨h, hfh⟩ := Option.isSome_iff_exists.mp (hh hf)
    refine ⟨?_, ?_, ?_, hlast⟩ <;>
      simp [handleVoiceInput, hl, hf, fallbackStopBlock, hfh]
  · have hf' : s.isUsingFallback = false := by
      cases h3 : s.isUsingFallback with
      | false => rfl
      | true => exact absurd h3 hf
    refine ⟨?_, ?_, ?_, hlast⟩ <;>
      simp [handleVoiceInput, hl, hf', fallbackStopBlock]

/-- Witness for C3: fallback session listening with handle 5. -/
theorem handleVoiceInput_listening_stops_witness :
    (handleVoiceInput ⟨true, true, true, 9⟩ "en" ⟨true, true, some 5, "x"⟩).1.isListening = false
  ∧ (handleVoiceInput ⟨true, true, true, 9⟩ "en" ⟨true, true, some 5, "x"⟩).1.isUsingFallback = false
  ∧ (handleVoiceInput ⟨true, true, true, 9⟩ "en" ⟨true, true, some 5, "x"⟩).2 =
      (if VoiceState.isUsingFallback ⟨true, true, some 5, "x"⟩ = true
       then [VoiceAct.stopNative ((VoiceState.fallbackHandle ⟨true, true, some 5, "x"⟩).getD 0)]
       else [VoiceAct.stopPrimary]) :=
  ⟨(handleVoiceInput_listening_stops ⟨true, true, true, 9⟩ "en" ⟨true, true, some 5, "x"⟩
      rfl (fun _ => rfl)).1,
   (handleVoiceInput_listening_stops ⟨true, true, true, 9⟩ "en" ⟨true, true, some 5, "x"⟩
      rfl (fun _ => rfl)).2.1,
   (handleVoiceInput_listening_stops ⟨true, true, true, 9⟩ "en" ⟨true, true, some 5, "x"⟩
      rfl (fun _ => rfl)).2.2.1⟩

/-- C6: with no session listening, fallback mode off and no stored fallback
handle, the stop logic is a no-op however often it is invoked: no native
stop is attempted (so nothing can throw) and every field of the state —
listening flag, fallback flag, stored handle, transcript — is unchanged. -/
theorem fallbackStopBlock_idle_noop (s : VoiceState) (n : Nat)
    (h1 : s.isListening = false) (h2 : s.isUsingFallback = false)
    (h3 : s.fallbackHandle = none) :
    iterOp fallbackStopBlock n s = (s, []) := by
  obtain ⟨l, f, hd, tr⟩ := s
  simp only at h1 h2 h3
  subst h1
  subst h2
  subst h3
  have hone : fallbackStopBlock ⟨false, false, none, tr⟩ = (⟨false, false, none, tr⟩, []) := rfl
  induction n with
  | zero => rfl
  | succ m ih => simp [iterOp, hone, ih]

/-- Witness for C6: three stop invocations on an idle state. -/
theorem fallbackStopBlock_idle_noop_witness :
    iterOp fallbackStopBlock 3 ⟨false, false, none, "kept"⟩ =
      (⟨false, false, none, "kept"⟩, []) :=
  fallbackStopBlock_idle_noop ⟨false, false, none, "kept"⟩ 3 rfl rfl rfl

/-- C5 is false as stated: the duplicate fallback implementation kept in
the repository (`src/unnamed/part_002`) fixes the fallback locale to
`en-US`; with Hindi selected, it diverges from the mapped locale `hi-IN`
the current implementation derives. -/
theorem part002_fallback_locale_counterexample :
    (part002StartFallbackSpeechRecognition ⟨true, true, true, 0⟩ "hi"
        ⟨false, false, none, ""⟩).2 = [VoiceAct.startFallback "en-US"]
  ∧ getLocaleForLanguage "hi" = "hi-IN"
  ∧ ("en-US" : String) ≠ "hi-IN" := by
  refine ⟨by decide, by decide, by decide⟩

/-- C5 (amended): in the current ChatInterface, both the primary and the
fallback session are configured with `getLocaleForLanguage` of the selected
code, which yields `en-US` for every code outside the mapped domain; the
duplicate `part_002` implementation instead configures its fallback session
with the fixed locale `en-US` regardless of the selected language. -/
theorem capture_locale_mapping (env : VoiceEnv) (code : String) (s : VoiceState)
    (hl : s.isListening = false) :
    (env.browserSupportsSpeechRecognition = true → env.micGranted = true →
      (handleVoiceInput env code s).2 =
        [VoiceAct.requestMic, VoiceAct.startPrimary (getLocaleForLanguage code)])
  ∧ (env.nativeRecognitionAvailable = true →
      (startFallbackSpeechRecognition env code s).2 =
        [VoiceAct.startFallback (getLocaleForLanguage code)])
  ∧ (code ∉ mappedLanguageCodes → getLocaleForLanguage code = "en-US")
  ∧ (env.nativeRecognitionAvailable = true →
      (part002StartFallbackSpeechRecognition env code s).2 =
        [VoiceAct.startFallback "en-US"]) := by
  refine ⟨?_, ?_, ?_, ?_⟩
  · intro hb hm
    simp [handleVoiceInput, hl, hb, hm]
  · intro hn
    simp [startFallbackSpeechRecognition, hn]
  · intro hu
    simp only [mappedLanguageCodes, List.mem_cons, List.not_mem_nil, or_false, not_or] at hu
    obtain ⟨e1, e2, e3, e4, e5, e6, e7, e8, e9, e10, e11, e12, e13, e14, e15,
      e16, e17, e18, e19, e20, e21, e22, e23, e24, e25⟩ := hu
    simp [getLocaleForLanguage, e1, e2, e3, e4, e5, e6, e7, e8, e9, e10, e11, e12,
      e13, e14, e15, e16, e17, e18, e19, e20, e21, e22, e23, e24, e25]
  · intro hn
    simp [part002StartFallbackSpeechRecognition, hn]

/-- Witness for the amended C5: the unmapped code `"zz"`, on an idle
state with every capability present. -/
theorem capture_locale_mapping_witness :
    (handleVoiceInput ⟨true, true, true, 7⟩ "zz" ⟨false, false, none, ""⟩).2 =
      [VoiceAct.requestMic, VoiceAct.startPrimary (getLocaleForLanguage "zz")]
  ∧ (startFallbackSpeechRecognition ⟨true, true, true, 7⟩ "zz" ⟨false, false, none, ""⟩).2 =
      [VoiceAct.startFallback (getLocaleForLanguage "zz")]
  ∧ getLocaleForLanguage "zz" = "en-US"
  ∧ (part002StartFallbackSpeechRecognition ⟨true, true, true, 7⟩ "zz"
      ⟨false, false, none, ""⟩).2 = [VoiceAct.startFallback "en-US"] := by
  have h := capture_locale_mapping ⟨true, true, true, 7⟩ "zz" ⟨false, false, none, ""⟩ rfl
  exact ⟨h.1 rfl rfl, h.2.1 rfl, h.2.2.1 (by decide), h.2.2.2 rfl⟩

/-- C9: selecting an answer on an unanswered question adds exactly 10 to
the score when the selected index equals the question's `correctAnswer` and
subtracts exactly 5 otherwise (the score is an integer, so it can go
negative), records the selection and marks the question answered; any
further selection while the question is answered is a no-op. -/
theorem handleAnswerSelect_score (s : QuizState) (i j : Nat)
    (hq : s.currentQuestion < s.questions.length) (hna : s.isAnswered = false) :
    (handleAnswerSelect s i).score =
      (if i = (s.questions.get ⟨s.currentQuestion, hq⟩).correctAnswer
       then s.score + 10 else s.score - 5)
  ∧ (handleAnswerSelect s i).selectedAnswer = some i
  ∧ (handleAnswerSelect s i).isAnswered = true
  ∧ (∀ t : QuizState, t.isAnswered = true → handleAnswerSelect t j = t)
  ∧ handleAnswerSelect (handleAnswerSelect s i) j = handleAnswerSelect s i := by
  have hgetd : s.questions.getD s.currentQuestion ⟨"", [], 0⟩ =
      s.questions.get ⟨s.currentQuestion, hq⟩ := by
    simp [List.getD_eq_getElem?_getD, List.getElem?_eq_getElem hq, List.get_eq_getElem]
  have hnoop : ∀ t : QuizState, t.isAnswered = true → handleAnswerSelect t j = t := by
    intro t ht
    simp [handleAnswerSelect, ht]
  have hans : (handleAnswerSelect s i).isAnswered = true := by
    simp [handleAnswerSelect, hna]
  refine ⟨?_, ?_, hans, hnoop, hnoop _ hans⟩
  · have hcond : ¬(s.isAnswered = true) := by simp [hna]
    simp only [handleAnswerSelect, if_neg hcond, hgetd]
  · simp [handleAnswerSelect, hna]

/-- Witness for C9: one question with correct option 0; selecting option 1
from score 0 yields the negative score `-5`. -/
theorem handleAnswerSelect_score_witness :
    (0 : Nat) < 1
  ∧ (handleAnswerSelect ⟨[⟨"q", ["a", "b"], 0⟩], 0, 0, none, false⟩ 1).score = -5
  ∧ (handleAnswerSelect ⟨[⟨"q", ["a", "b"], 0⟩], 0, 0, none, false⟩ 1).score < 0
  ∧ (handleAnswerSelect ⟨[⟨"q", ["a", "b"], 0⟩], 0, 0, none, false⟩ 1).selectedAnswer = some 1 := by
  have h := handleAnswerSelect_score ⟨[⟨"q", ["a", "b"], 0⟩], 0, 0, none, false⟩ 1 0
    (by decide) rfl
  refine ⟨by decide, ?_, ?_, h.2.1⟩
  · rw [h.1]; decide
  · rw [h.1]; decide

theorem processFiles_shape : ∀ (fs : List FileData) (prior : List UploadedFile),
    (processFiles prior fs).1 =
      prior ++ (fs.filter acceptsFile).map (fun f => ⟨f, UploadStatus.uploading⟩)
  ∧ (processFiles prior fs).2 = (fs.filter fun f => !acceptsFile f).map rejectToast := by
  intro fs
  induction fs with
  | nil => intro prior; simp [processFiles]
  | cons f fs ih =>
    intro prior
    by_cases hty : f.ftype.startsWith "image/"
    · by_cases hsz : f.size ≤ 10 * 1024 * 1024
      · have hacc : acceptsFile f = true := by simp [acceptsFile, hty, hsz]
        have hlt : ¬(10 * 1024 * 1024 < f.size) := by omega
        simp [processFiles, processFile, hty, hlt, hacc, ih]
      · have hacc : acceptsFile f = false := by simp [acceptsFile, hty, hsz]
        have hlt : 10 * 1024 * 1024 < f.size := by omega
        simp [processFiles, processFile, hty, hlt, hacc, ih, rejectToast]
    · have hacc : acceptsFile f = false := by simp [acceptsFile, hty]
      simp [processFiles, processFile, hty, hacc, ih, rejectToast]

/-- C10: a submitted file is appended to the uploaded-files list, with
initial status `uploading`, exactly when its MIME type starts with
`image/` and its size is at most `10 * 1024 * 1024` bytes; every rejected
file contributes one destructive toast and nothing to the list. -/
theorem processFiles_accept_iff (prior : List UploadedFile) (files : List FileData) :
    (processFiles prior files).1 =
      prior ++ (files.filter acceptsFile).map (fun f => ⟨f, UploadStatus.uploading⟩)
  ∧ (processFiles prior files).2 = (files.filter fun f => !acceptsFile f).map rejectToast
  ∧ (∀ f : FileData, acceptsFile f = true ↔
      (f.ftype.startsWith "image/" = true ∧ f.size ≤ 10 * 1024 * 1024))
  ∧ (∀ f : FileData, (rejectToast f).destructive = true) := by
  refine ⟨(processFiles_shape files prior).1, (processFiles_shape files prior).2, ?_, ?_⟩
  · intro f
    simp [acceptsFile]
  · intro f
    by_cases h : f.ftype.startsWith "image/" <;> simp [rejectToast, h]

end Sahayak
